import Mathlib

/-!
Verification of the natural-language specification of `src/server.js`
(premiumdungeom/premium-download) against a shallow embedding of the code.

The file embeds the primary implementation (the rate-limited, validated
variant; the spec's design notes direct that the trailing duplicate blocks
in the source are superseded drafts and not required behavior):

* `runYtDlp` (server.js lines 33-53): the subprocess runner, modelled as a
  function of the first settled promise event (process close before the
  timeout, or the timeout firing first).
* `cleanupTempFiles` (server.js lines 56-67): the temp-directory sweeper,
  modelled over an initial directory listing plus a current-state `stat`
  map (so that an entry disappearing between the listing and its `statSync`
  — a deletion race — is representable), and a presence map at `rmSync`
  time for the race between `stat` and deletion.
* `GET /api/inspect` and `GET /api/download` (server.js lines 78-178):
  handlers modelled as pure functions of the request parameters and of an
  oracle giving the subprocess outcome.
* `formatBytes` (server.js lines 181-190): byte counts are modelled as
  exact integers (yt-dlp reports integral byte counts; division by 1024 is
  exact on IEEE doubles in this range, so `toFixed(2)` rounds the exact
  rational value, which the model computes by integer arithmetic).

JavaScript truthiness of the optional fields is modelled explicitly
(`none` for absent, with `0` / `""` falsy), and the case-insensitive
regular-expression tests `/m4a|mp3|opus/i` and `/mp4|webm/i` are modelled
as case-insensitive substring containment on the character list.
-/

namespace PremiumDownload

/-- MAX_FILE_AGE (server.js line 15): 30 minutes, in milliseconds. -/
def MAX_FILE_AGE : Int := 1000 * 60 * 30

/-- YT_DLP_TIMEOUT (server.js line 16): 5 minutes, in milliseconds. -/
def YT_DLP_TIMEOUT : Int := 1000 * 60 * 5

/-- The first event that settles the promise of `runYtDlp` (server.js
lines 33-53): either the child's `close` event fires before the timeout
(with its exit code — `none` models a `null` code from a signal kill — and
the accumulated stdout and stderr), or the timeout fires first. -/
inductive RunEvent where
  | close (code : Option Int) (stdout stderr : String)
  | timeout

/-- Outcome of one `runYtDlp` invocation: how the promise settles, and
whether `proc.kill()` was called on the child. -/
structure RunYtDlpResult where
  result : Except String String
  killed : Bool

/-- JavaScript template interpolation of the `close` code: a `null` code
renders as "null". -/
def codeStr : Option Int → String
  | some n => toString n
  | none => "null"

/-- runYtDlp (server.js lines 33-53). On `close` with code 0 it resolves
with stdout; on a non-zero (or null) code it rejects with stderr if
non-empty, else with "Process exited with code <code>". If the timeout
fires first it kills the child and rejects with "Operation timed out". -/
def runYtDlp : RunEvent → RunYtDlpResult
  | .close code out err =>
      if code = some 0 then ⟨.ok out, false⟩
      else ⟨.error (if err = "" then "Process exited with code " ++ codeStr code else err),
            false⟩
  | .timeout => ⟨.error "Operation timed out", true⟩

/-- Embeds `f.startsWith("dl-")` (server.js line 59). -/
def isDlName (s : String) : Bool := s.data.take 3 == ['d', 'l', '-']

/-- fs.rmSync with the `force` option (server.js line 64): deleting a
missing entry raises unless `force` is set. -/
def rmSync (present force : Bool) : Except Unit Unit :=
  if present then .ok () else if force then .ok () else .error ()

/-- One iteration of the sweeper's forEach body (server.js lines 60-66):
`statSync` the entry (raising if it vanished since the listing — `statOf`
returns its mtimeMs, or `none` if gone), and if its age exceeds
MAX_FILE_AGE, delete it with `rmSync(..., {recursive: true, force: true})`.
Returns whether the deletion branch ran. -/
def sweepOne (statOf : String → Option Int) (rmPresent : String → Bool) (now : Int)
    (f : String) : Except Unit Bool :=
  match statOf f with
  | none => .error ()
  | some mtime =>
    if now - mtime > MAX_FILE_AGE then
      match rmSync (rmPresent f) true with
      | .error e => .error e
      | .ok _ => .ok true
    else .ok false

/-- Sequential forEach over the prefix-filtered listing (server.js lines
58-66): the first raised error aborts the sweep. Returns the entries whose
deletion branch ran, in listing order. -/
def sweepList (statOf : String → Option Int) (rmPresent : String → Bool) (now : Int) :
    List String → Except Unit (List String)
  | [] => .ok []
  | f :: fs =>
    match sweepOne statOf rmPresent now f with
    | .error e => .error e
    | .ok deleted =>
      match sweepList statOf rmPresent now fs with
      | .error e => .error e
      | .ok rest => .ok (if deleted then f :: rest else rest)

/-- cleanupTempFiles (server.js lines 56-67): filter the temp-root listing
to names starting with "dl-", then sweep each in order. -/
def cleanupTempFiles (listing : List String) (statOf : String → Option Int)
    (rmPresent : String → Bool) (now : Int) : Except Unit (List String) :=
  sweepList statOf rmPresent now (listing.filter isDlName)

/-- An entry is stale when it still stats and its age strictly exceeds
MAX_FILE_AGE (the code's `Date.now() - stat.mtimeMs > MAX_FILE_AGE`). -/
def isStale (statOf : String → Option Int) (now : Int) (f : String) : Bool :=
  match statOf f with
  | some m => decide (now - m > MAX_FILE_AGE)
  | none => false

/-- ASCII lowering of a code point (the effect of the regex /i flag on the
literal alternatives involved, which are all ASCII). -/
def lowerN (n : Nat) : Nat := if 65 ≤ n && n ≤ 90 then n + 32 else n

/-- Case-insensitive character comparison. -/
def eqCI (a b : Char) : Bool := lowerN a.toNat == lowerN b.toNat

/-- Case-insensitive "needle is a prefix of haystack" on character lists. -/
def lcPrefixCI : List Char → List Char → Bool
  | [], _ => true
  | _ :: _, [] => false
  | a :: as, b :: bs => eqCI a b && lcPrefixCI as bs

/-- Case-insensitive substring containment on character lists. -/
def lcContainsCI (needle : List Char) : List Char → Bool
  | [] => lcPrefixCI needle []
  | c :: t => lcPrefixCI needle (c :: t) || lcContainsCI needle t

/-- Embeds a test `/p1|p2|.../i.test(s)` whose alternatives are literals:
some alternative occurs in s, case-insensitively. -/
def regexTestCI (pats : List String) (s : String) : Bool :=
  pats.any (fun p => lcContainsCI p.data s.data)

/-- One yt-dlp format entry, restricted to the fields the server reads.
Absent (undefined/null) fields are `none`; numeric fields are modelled as
exact integers. -/
structure Format where
  format_id : String
  ext : String
  vcodec : Option String
  height : Option Nat
  abr : Option Int
  filesize : Option Int
  filesize_approx : Option Int
deriving DecidableEq

/-- JavaScript truthiness of an optional string: absent and "" are falsy. -/
def truthyStr : Option String → Bool
  | some s => !(s == "")
  | none => false

/-- JavaScript truthiness of an optional number: absent and 0 are falsy. -/
def truthyNat : Option Nat → Bool
  | some n => !(n == 0)
  | none => false

/-- JavaScript truthiness of an optional number: absent and 0 are falsy. -/
def truthyInt : Option Int → Bool
  | some n => !(n == 0)
  | none => false

/-- The kind=yta filter (server.js lines 95-97): `f.vcodec === "none"` and
`/m4a|mp3|opus/i.test(f.ext)`. -/
def audioKeepB (f : Format) : Bool :=
  f.vcodec == some "none" && regexTestCI ["m4a", "mp3", "opus"] f.ext

/-- Embeds `[360, 480, 720, 1080].includes(f.height)` (strict equality, so
an absent height is never a member). -/
def heightAllowedB : Option Nat → Bool
  | some h => h == 360 || h == 480 || h == 720 || h == 1080
  | none => false

/-- The default (video) filter (server.js lines 99-102): truthy `f.vcodec`
(note: the string "none" is truthy), truthy `f.height`, height in the
allow-list, and `/mp4|webm/i.test(f.ext)`. -/
def videoKeepB (f : Format) : Bool :=
  truthyStr f.vcodec && truthyNat f.height && heightAllowedB f.height &&
    regexTestCI ["mp4", "webm"] f.ext

/-- The sort key `(x.height || 0)` of the comparator on server.js line 106. -/
def sortKey (f : Format) : Nat := f.height.getD 0

/-- Stable insertion for the descending sort: an element is placed before
the first strictly smaller key, so elements with equal keys keep their
original relative order, as Array.prototype.sort guarantees. -/
def insertDesc (f : Format) : List Format → List Format
  | [] => [f]
  | g :: gs => if sortKey g ≤ sortKey f then f :: g :: gs else g :: insertDesc f gs

/-- Stable sort by descending `(height || 0)`, the effect of
`formats.sort((a, b) => (b.height || 0) - (a.height || 0))` on line 106. -/
def sortByHeightDesc : List Format → List Format
  | [] => []
  | f :: fs => insertDesc f (sortByHeightDesc fs)

/-- The inspect handler's format pipeline (server.js lines 93-106): filter
by kind, then sort; the sort on line 106 sits outside the if/else, so it
applies to the audio branch as well. -/
def inspectFormats (kind : String) (formats : List Format) : List Format :=
  sortByHeightDesc
    (if kind == "yta" then formats.filter audioKeepB else formats.filter videoKeepB)

/-- Unit labels, server.js line 183. -/
def unitName : Nat → String
  | 0 => "B"
  | 1 => "KB"
  | 2 => "MB"
  | _ => "GB"

/-- Renders m/100 with exactly two decimals, for m ≥ 0. -/
def twoDecNat (m : Nat) : String :=
  toString (m / 100) ++ "." ++ (if m % 100 < 10 then "0" else "") ++ toString (m % 100)

/-- Number.prototype.toFixed(2) applied to the exact value b / d (d > 0):
the sign is taken first, then the magnitude is rounded to the nearest
hundredth with ties upward, i.e. n = floor(100 * |b| / d + 1/2), computed
here by integer arithmetic as (200 * |b| + d) fdiv (2 * d). -/
def toFixed2 (b d : Int) : String :=
  if b < 0 then "-" ++ twoDecNat ((200 * (-b) + d).fdiv (2 * d)).toNat
  else twoDecNat ((200 * b + d).fdiv (2 * d)).toNat

/-- formatBytes (server.js lines 181-190). A falsy argument
(undefined/null/0) yields null. Otherwise the while loop divides by 1024
while `bytes >= 1024 && i < units.length - 1`, i.e. at most three times;
the loop guard after i divisions is the exact integer comparison
b < 1024^(i+1), and the scaled value b / 1024^i is rendered by
toFixed(2). -/
def formatBytes : Option Int → Option String
  | none => none
  | some b =>
    if b = 0 then none
    else if b < 1024 then some (toFixed2 b 1 ++ " " ++ unitName 0)
    else if b < 1024 ^ 2 then some (toFixed2 b 1024 ++ " " ++ unitName 1)
    else if b < 1024 ^ 3 then some (toFixed2 b (1024 ^ 2) ++ " " ++ unitName 2)
    else some (toFixed2 b (1024 ^ 3) ++ " " ++ unitName 3)

/-- One entry of the cleaned format list in the inspect response
(server.js lines 108-114). -/
structure Cleaned where
  format_id : String
  ext : String
  resolution : Option String
  audio_bitrate : Option Int
  size : Option String
deriving DecidableEq

/-- JavaScript `a || b` on optional numbers: `a` when truthy, else `b`. -/
def orElseTruthy (a b : Option Int) : Option Int :=
  if truthyInt a then a else b

/-- The cleaned per-format payload (server.js lines 108-114):
`resolution` is "<height>p" for a truthy height and null otherwise,
`audio_bitrate` is `f.abr || null`, and `size` is
`formatBytes(f.filesize || f.filesize_approx)`. -/
def cleanFormat (f : Format) : Cleaned :=
  { format_id := f.format_id
    ext := f.ext
    resolution :=
      match f.height with
      | some h => if h == 0 then none else some (toString h ++ "p")
      | none => none
    audio_bitrate := if truthyInt f.abr then f.abr else none
    size := formatBytes (orElseTruthy f.filesize f.filesize_approx) }

/-- A request URL, already split into its components. -/
structure Url where
  protocol : String
  host : String
  path : String
deriving DecidableEq

/-- Modelled from the spec: `isValidYouTubeUrl` (server.js lines 70-75)
delegates to `validator.isURL`, an external npm library whose source is
not part of this repository; the spec describes the check as accepting
http(s) URLs whose host is on the allow-list www.youtube.com /
youtube.com / youtu.be. -/
def isValidYouTubeUrl (u : Url) : Bool :=
  (u.protocol == "http" || u.protocol == "https") &&
    (u.host == "www.youtube.com" || u.host == "youtube.com" || u.host == "youtu.be")

/-- Validation applied to an optional url parameter. -/
def validUrlOpt : Option Url → Bool
  | some u => isValidYouTubeUrl u
  | none => false

/-- JavaScript `!param` for an optional string query parameter: true when
the parameter is missing or the empty string. -/
def falsyStrOpt : Option String → Bool
  | some s => s == ""
  | none => true

/-- The metadata the handler extracts from the tool's JSON dump. -/
structure MediaInfo where
  title : String
  thumbnail : String
  duration : String
  formats : List Format

/-- Observable outcome of one GET /api/inspect request. -/
structure InspectOutcome where
  status : Nat
  invokedRunner : Bool
  errorMsg : Option String
  payload : Option (String × String × String × List Cleaned)

/-- GET /api/inspect (server.js lines 78-129), as a function of the query
parameters and of an oracle `fetch` for the combined outcome of
`runYtDlp(["-J", url])` followed by JSON.parse (an error models a runner
rejection or a parse failure, both landing in the handler's catch). The
`kind` parameter defaults to "ytv" at destructuring, so a caller models an
absent kind by passing "ytv". -/
def inspectHandler (url : Option Url) (kind : String)
    (fetch : Except String MediaInfo) : InspectOutcome :=
  if url.isNone || !validUrlOpt url then
    ⟨400, false, some "Valid YouTube URL is required", none⟩
  else
    match fetch with
    | .error m => ⟨500, true, some ("Failed to inspect video: " ++ m), none⟩
    | .ok info =>
      ⟨200, true, none,
        some (info.title, info.thumbnail, info.duration,
          (inspectFormats kind info.formats).map cleanFormat)⟩

/-- Observable outcome of one GET /api/download request. -/
structure DownloadOutcome where
  status : Nat
  invokedRunner : Bool
  errorMsg : Option String
  sentFile : Option String
  tmpDir : Option String
  tmpRemovedByHandler : Bool

/-- GET /api/download (server.js lines 132-178): validate url and
format_id; create the temp directory "dl-" ++ suffix (mkdtempSync on the
prefix path); run the tool (oracle `run`); list the directory
(`filesAfter`). An empty listing is thrown and caught: the response is a
500 and the handler does not remove the directory (the rmSync on line 166
lives in the res.download callback, which never runs on this path).
Otherwise the first file is streamed and the callback removes the
directory whether or not the transfer failed. -/
def downloadHandler (url : Option Url) (format_id : Option String) (kind : String)
    (suffix : String) (run : Except String String) (filesAfter : List String) :
    DownloadOutcome :=
  if url.isNone || falsyStrOpt format_id || !validUrlOpt url then
    ⟨400, false, some "Valid YouTube URL and format_id are required", none, none, false⟩
  else
    match run with
    | .error m =>
        ⟨500, true, some ("Download failed: " ++ m), none, some ("dl-" ++ suffix), false⟩
    | .ok _ =>
      match filesAfter with
      | [] =>
          ⟨500, true, some "Download failed: No file was downloaded", none,
            some ("dl-" ++ suffix), false⟩
      | f :: _ =>
          ⟨200, true, none, some f, some ("dl-" ++ suffix), true⟩

/-- The claim's reading of the video filter in C2: a genuine video codec
(present, non-empty, and not the literal "none"), a height in
{360, 480, 720, 1080}, and a container extension that IS "mp4" or
"webm". -/
def claimVideoKeep (f : Format) : Bool :=
  (match f.vcodec with
   | some s => !(s == "") && !(s == "none")
   | none => false) &&
  heightAllowedB f.height &&
  (f.ext == "mp4" || f.ext == "webm")

/-- Descending sortedness by `(height || 0)`. -/
def sortedDesc (l : List Format) : Prop :=
  l.Pairwise (fun a b => sortKey b ≤ sortKey a)

theorem rmSync_force (p : Bool) : rmSync p true = .ok () := by
  cases p <;> rfl

theorem sweepOne_ok (statOf : String → Option Int) (rmPresent : String → Bool)
    (now : Int) (f : String) (m : Int) (h : statOf f = some m) :
    sweepOne statOf rmPresent now f = .ok (decide (now - m > MAX_FILE_AGE)) := by
  unfold sweepOne
  rw [h]
  by_cases hc : now - m > MAX_FILE_AGE
  · simp [hc, rmSync_force]
  · simp [hc]

theorem sweepList_ok (statOf : String → Option Int) (rmPresent : String → Bool) (now : Int) :
    ∀ l : List String, (∀ f ∈ l, (statOf f).isSome) →
      sweepList statOf rmPresent now l = .ok (l.filter (isStale statOf now)) := by
  intro l
  induction l with
  | nil => intro _; rfl
  | cons f fs ih =>
    intro h
    obtain ⟨m, hm⟩ := Option.isSome_iff_exists.mp (h f (by simp))
    have hrest := ih (fun g hg => h g (by simp [hg]))
    unfold sweepList
    rw [sweepOne_ok statOf rmPresent now f m hm, hrest]
    by_cases hc : now - m > MAX_FILE_AGE
    · simp [List.filter, isStale, hm, hc]
    · simp [List.filter, isStale, hm, hc]

/-- Claim C7 counterexample: a sweep over a listing containing "dl-gone"
where the entry has vanished before `statSync` (the stat map returns
nothing) raises instead of completing — `statSync` on a missing path
throws and the sweeper does not catch it, contradicting the claim that
every such run completes without error. -/
theorem claim_C7_counterexample :
    cleanupTempFiles ["dl-gone"] (fun _ => none) (fun _ => false) 0 = Except.error () := rfl

/-- Claim C7 (amended): deletion races at the removal step are tolerated —
if every prefix-matching listed entry still stats successfully, the sweep
completes without error regardless of which entries are still present when
`rmSync` runs (its `force: true` option swallows a missing target). A race
at the `statSync` step, by contrast, raises (see the counterexample). -/
theorem claim_C7_amended (listing : List String) (statOf : String → Option Int) (now : Int)
    (h : ∀ f ∈ listing, isDlName f = true → (statOf f).isSome) :
    ∀ rmPresent : String → Bool,
      ∃ deleted, cleanupTempFiles listing statOf rmPresent now = Except.ok deleted := by
  intro rmPresent
  refine ⟨(listing.filter isDlName).filter (isStale statOf now), ?_⟩
  apply sweepList_ok
  intro f hf
  exact h f (List.mem_filter.mp hf).1 (List.mem_filter.mp hf).2

/-- Claim C7 witness: a concrete stale entry that vanishes between its
stat and its removal (`rmPresent` is everywhere false) is still swept
without error. -/
theorem claim_C7_witness :
    ∃ deleted,
      cleanupTempFiles ["dl-x"] (fun _ => some 0) (fun _ => false) 1800001 =
        Except.ok deleted :=
  claim_C7_amended ["dl-x"] (fun _ => some 0) 1800001 (by decide) (fun _ => false)

/-- Claim C8: over any temp-root state in which every "dl-"-prefixed
listed entry still stats (no races), one sweep deletes exactly the entries
whose name starts with "dl-" and whose age `now - mtimeMs` strictly
exceeds MAX_FILE_AGE; every newer or non-matching entry is untouched (it
is absent from the deleted list, and the deletion branch never runs for
it). -/
theorem claim_C8_sweep_exact (listing : List String) (statOf : String → Option Int)
    (rmPresent : String → Bool) (now : Int)
    (h : ∀ f ∈ listing, isDlName f = true → (statOf f).isSome) :
    cleanupTempFiles listing statOf rmPresent now =
      .ok ((listing.filter isDlName).filter (isStale statOf now)) ∧
    ∀ f, f ∈ (listing.filter isDlName).filter (isStale statOf now) ↔
      f ∈ listing ∧ isDlName f = true ∧ isStale statOf now f = true := by
  constructor
  · apply sweepList_ok
    intro f hf
    exact h f (List.mem_filter.mp hf).1 (List.mem_filter.mp hf).2
  · intro f
    simp only [List.mem_filter]
    tauto

/-- Claim C8 witness: with a stale "dl-old" (age 1800001 ms), a fresh
"dl-new" (age 800001 ms) and a non-matching "other", exactly "dl-old" is
deleted. -/
theorem claim_C8_witness :
    cleanupTempFiles ["dl-old", "dl-new", "other"]
      (fun f => if f = "other" then none else if f = "dl-old" then some 0 else some 1000000)
      (fun _ => true) 1800001 = Except.ok ["dl-old"] :=
  ((claim_C8_sweep_exact ["dl-old", "dl-new", "other"]
      (fun f => if f = "other" then none else if f = "dl-old" then some 0 else some 1000000)
      (fun _ => true) 1800001 (by decide)).1).trans rfl

/-- Claim C5: for every `close` of the child before the timeout — exit
code zero resolves with the captured stdout; a non-zero (or null) code
rejects with the captured stderr when non-empty, and otherwise with a
message containing the exit code; the child is not killed in either
case. -/
theorem claim_C5_runner_close (code : Option Int) (out err : String) :
    (code = some 0 → runYtDlp (.close code out err) = ⟨.ok out, false⟩) ∧
    (code ≠ some 0 → err ≠ "" → runYtDlp (.close code out err) = ⟨.error err, false⟩) ∧
    (code ≠ some 0 → err = "" →
      runYtDlp (.close code out err) =
        ⟨.error ("Process exited with code " ++ codeStr code), false⟩) := by
  refine ⟨fun h => ?_, fun h he => ?_, fun h he => ?_⟩
  · simp [runYtDlp, h]
  · simp [runYtDlp, h, he]
  · simp [runYtDlp, h, he]

/-- Claim C5 witness: exit code 1 with empty stderr rejects with the
message naming the code. -/
theorem claim_C5_witness :
    (some 1 : Option Int) ≠ some 0 ∧
      runYtDlp (.close (some 1) "the stdout" "") =
        ⟨.error "Process exited with code 1", false⟩ :=
  ⟨by decide, ((claim_C5_runner_close (some 1) "the stdout" "").2.2 (by decide) rfl).trans rfl⟩

theorem insertDesc_perm (f : Format) (l : List Format) :
    (insertDesc f l).Perm (f :: l) := by
  induction l with
  | nil => exact List.Perm.refl _
  | cons g gs ih =>
    by_cases h : sortKey g ≤ sortKey f
    · simp only [insertDesc, if_pos h]
      exact List.Perm.refl _
    · simp only [insertDesc, if_neg h]
      exact (ih.cons g).trans (List.Perm.swap f g gs)

theorem sortByHeightDesc_perm (l : List Format) : (sortByHeightDesc l).Perm l := by
  induction l with
  | nil => exact List.Perm.refl _
  | cons f fs ih => exact (insertDesc_perm f (sortByHeightDesc fs)).trans (ih.cons f)

theorem insertDesc_sorted (f : Format) (l : List Format) (h : sortedDesc l) :
    sortedDesc (insertDesc f l) := by
  induction l with
  | nil => simp [insertDesc, sortedDesc]
  | cons g gs ih =>
    simp only [sortedDesc] at h ⊢
    rcases List.pairwise_cons.mp h with ⟨hg, hgs⟩
    by_cases hc : sortKey g ≤ sortKey f
    · simp only [insertDesc, if_pos hc]
      refine List.pairwise_cons.mpr ⟨fun x hx => ?_, h⟩
      rcases List.mem_cons.mp hx with hx | hx
      · subst hx; exact hc
      · exact (hg x hx).trans hc
    · simp only [insertDesc, if_neg hc]
      refine List.pairwise_cons.mpr ⟨fun x hx => ?_, ih hgs⟩
      rcases List.mem_cons.mp ((insertDesc_perm f gs).mem_iff.mp hx) with hx' | hx'
      · subst hx'; exact Nat.le_of_lt (Nat.lt_of_not_le hc)
      · exact hg x hx'

theorem sortByHeightDesc_sorted (l : List Format) : sortedDesc (sortByHeightDesc l) := by
  induction l with
  | nil => simp [sortByHeightDesc, sortedDesc]
  | cons f fs ih => exact insertDesc_sorted f _ ih

theorem sortByHeightDesc_eq_self (l : List Format) (h : ∀ f ∈ l, sortKey f = 0) :
    sortByHeightDesc l = l := by
  induction l with
  | nil => rfl
  | cons f fs ih =>
    have hrest : sortByHeightDesc fs = fs := ih (fun g hg => h g (by simp [hg]))
    simp only [sortByHeightDesc, hrest]
    cases fs with
    | nil => rfl
    | cons g gs =>
      have hle : sortKey g ≤ sortKey f := by
        rw [h g (by simp), h f (by simp)]
      simp [insertDesc, hle]

theorem audioKeepB_iff (f : Format) :
    audioKeepB f = true ↔
      f.vcodec = some "none" ∧ regexTestCI ["m4a", "mp3", "opus"] f.ext = true := by
  simp [audioKeepB]

theorem videoKeepB_iff (f : Format) :
    videoKeepB f = true ↔
      truthyStr f.vcodec = true ∧
        (∃ h, f.height = some h ∧ h ≠ 0 ∧ (h = 360 ∨ h = 480 ∨ h = 720 ∨ h = 1080)) ∧
        regexTestCI ["mp4", "webm"] f.ext = true := by
  cases hh : f.height with
  | none => simp [videoKeepB, truthyNat, heightAllowedB, hh]
  | some h =>
    simp [videoKeepB, truthyNat, heightAllowedB, hh, and_assoc]
    tauto

/-- Claim C2 counterexample: the format entry with vcodec "none" (i.e. no
video codec), height 720 and extension "xmp4" is kept by the code's video
filter for the default kind — the JavaScript truthiness test on vcodec
accepts the string "none", and the regex tests substring containment, not
extension membership — while the claim's filter ("has a video codec and a
container extension in {mp4, webm}") excludes it, refuting "keeps exactly"
at this input. -/
theorem claim_C2_counterexample :
    inspectFormats "ytv"
        [{ format_id := "f1", ext := "xmp4", vcodec := some "none", height := some 720,
           abr := none, filesize := none, filesize_approx := none }] =
      [{ format_id := "f1", ext := "xmp4", vcodec := some "none", height := some 720,
         abr := none, filesize := none, filesize_approx := none }] ∧
    claimVideoKeep
        { format_id := "f1", ext := "xmp4", vcodec := some "none", height := some 720,
          abr := none, filesize := none, filesize_approx := none } = false := by
  decide

/-- Claim C2 (amended): with kind=yta, inspect keeps exactly the entries
with vcodec exactly "none" and an extension containing m4a, mp3 or opus
case-insensitively; with any other kind it keeps exactly the entries with
a truthy vcodec field (any non-empty string, including the literal
"none"), a non-zero height in {360, 480, 720, 1080}, and an extension
containing mp4 or webm case-insensitively; the kept entries (both
branches) are returned as a permutation of the filtered list, sorted by
descending height. -/
theorem claim_C2_filter_sort (kind : String) (formats : List Format) :
    (inspectFormats kind formats).Perm
      (if kind = "yta" then formats.filter audioKeepB else formats.filter videoKeepB) ∧
    sortedDesc (inspectFormats kind formats) ∧
    ∀ f, f ∈ inspectFormats kind formats ↔
      f ∈ formats ∧
        (if kind = "yta" then
          f.vcodec = some "none" ∧ regexTestCI ["m4a", "mp3", "opus"] f.ext = true
        else
          truthyStr f.vcodec = true ∧
            (∃ h, f.height = some h ∧ h ≠ 0 ∧ (h = 360 ∨ h = 480 ∨ h = 720 ∨ h = 1080)) ∧
            regexTestCI ["mp4", "webm"] f.ext = true) := by
  have hbranch : inspectFormats kind formats =
      sortByHeightDesc (if kind = "yta" then formats.filter audioKeepB
        else formats.filter videoKeepB) := by
    by_cases hk : kind = "yta" <;> simp [inspectFormats, hk]
  refine ⟨?_, ?_, ?_⟩
  · rw [hbranch]
    exact sortByHeightDesc_perm _
  · rw [hbranch]
    exact sortByHeightDesc_sorted _
  · intro f
    rw [hbranch, (sortByHeightDesc_perm _).mem_iff]
    by_cases hk : kind = "yta"
    · simp [hk, List.mem_filter, audioKeepB_iff]
    · simp [hk, List.mem_filter, videoKeepB_iff]

/-- Claim C2 witness: a concrete video format list is returned sorted by
descending height. -/
theorem claim_C2_witness :
    sortedDesc (inspectFormats "ytv"
      [{ format_id := "18", ext := "mp4", vcodec := some "avc1", height := some 360,
         abr := some 96, filesize := some 1000, filesize_approx := none },
       { format_id := "22", ext := "mp4", vcodec := some "avc1", height := some 720,
         abr := some 192, filesize := none, filesize_approx := some 2000 }]) :=
  (claim_C2_filter_sort "ytv"
    [{ format_id := "18", ext := "mp4", vcodec := some "avc1", height := some 360,
       abr := some 96, filesize := some 1000, filesize_approx := none },
     { format_id := "22", ext := "mp4", vcodec := some "avc1", height := some 720,
       abr := some 192, filesize := none, filesize_approx := some 2000 }]).2.1

/-- Claim C9 counterexample: two audio entries that both carry heights
(100 then 200) survive the yta filter but come back reordered (200 first):
the descending-height sort on line 106 sits outside the if/else and is
applied to the audio branch too, contradicting "the same relative order as
in the source tool's format list". -/
theorem claim_C9_counterexample :
    (([⟨"a1", "m4a", some "none", some 100, none, none, none⟩,
       ⟨"a2", "m4a", some "none", some 200, none, none, none⟩] : List Format).filter
        audioKeepB =
      [⟨"a1", "m4a", some "none", some 100, none, none, none⟩,
       ⟨"a2", "m4a", some "none", some 200, none, none, none⟩]) ∧
    inspectFormats "yta"
        [⟨"a1", "m4a", some "none", some 100, none, none, none⟩,
         ⟨"a2", "m4a", some "none", some 200, none, none, none⟩] =
      [⟨"a2", "m4a", some "none", some 200, none, none, none⟩,
       ⟨"a1", "m4a", some "none", some 100, none, none, none⟩] ∧
    (⟨"a1", "m4a", some "none", some 100, none, none, none⟩ : Format) ≠
      ⟨"a2", "m4a", some "none", some 200, none, none, none⟩ := by
  decide

/-- Claim C9 (amended): the audio branch also passes through the
descending-height sort, but the sort is stable with key (height || 0), so
when no surviving audio entry carries a height — the normal shape of
audio-only formats — the yta response preserves the source insertion order
exactly. -/
theorem claim_C9_audio_order (formats : List Format)
    (h : ∀ f ∈ formats.filter audioKeepB, f.height = none) :
    inspectFormats "yta" formats = formats.filter audioKeepB := by
  have hbranch : inspectFormats "yta" formats =
      sortByHeightDesc (formats.filter audioKeepB) := by
    simp [inspectFormats]
  rw [hbranch]
  apply sortByHeightDesc_eq_self
  intro f hf
  have hnone := h f hf
  simp [sortKey, hnone]

/-- Claim C9 witness: a realistic mixed list — a video entry carrying a
height alongside two heightless audio entries — keeps the surviving audio
entries in insertion order through the yta pipeline. -/
theorem claim_C9_witness :
    inspectFormats "yta"
        [⟨"22", "mp4", some "avc1", some 720, none, some 5000, none⟩,
         ⟨"139", "m4a", some "none", none, some 48, none, none⟩,
         ⟨"140", "m4a", some "none", none, some 128, none, none⟩] =
      ([⟨"22", "mp4", some "avc1", some 720, none, some 5000, none⟩,
        ⟨"139", "m4a", some "none", none, some 48, none, none⟩,
        ⟨"140", "m4a", some "none", none, some 128, none, none⟩] : List Format).filter
        audioKeepB :=
  claim_C9_audio_order
    [⟨"22", "mp4", some "avc1", some 720, none, some 5000, none⟩,
     ⟨"139", "m4a", some "none", none, some 48, none, none⟩,
     ⟨"140", "m4a", some "none", none, some 128, none, none⟩] (by decide)

theorem formatBytes_eq_none (o : Option Int) :
    formatBytes o = none ↔ truthyInt o = false := by
  cases o with
  | none => simp [formatBytes, truthyInt]
  | some b =>
    by_cases hb : b = 0
    · simp [formatBytes, truthyInt, hb]
    · have hne : formatBytes (some b) ≠ none := by
        simp only [formatBytes]
        rw [if_neg hb]
        split_ifs <;> simp
      simp [hne, truthyInt, hb]

/-- Claim C3 counterexample: at 1024^4 bytes the code returns "1024.00 GB"
even though no unit in {B, KB, MB, GB} gives a scaled value below 1024
(b < 1024^(i+1), i.e. b / 1024^i < 1024, fails for every i ≤ 3): the loop
caps the unit index at GB, so the claim's characterisation fails at this
input. -/
theorem claim_C3_counterexample :
    formatBytes (some (1024 ^ 4)) = some "1024.00 GB" ∧
    ∀ i : Fin 4, ¬((1024 ^ 4 : Int) < 1024 ^ ((i : Nat) + 1)) := by
  decide

/-- Claim C3 (amended): for byte counts 0 < b < 1024^4 formatBytes scales
b to the unit with the least index i such that the scaled value b / 1024^i
is below 1024 (stated as the exact integer comparison b < 1024^(i+1)),
rendered with two decimal places; counts of at least 1024^4 stay capped at
GB (see the counterexample), a null or zero count gives null, and the
claim's concrete points hold. -/
theorem claim_C3_format_bytes (b : Int) (h0 : 0 < b) (h4 : b < 1024 ^ 4) :
    (∃ i, i ≤ 3 ∧
      formatBytes (some b) = some (toFixed2 b (1024 ^ i) ++ " " ++ unitName i) ∧
      b < 1024 ^ (i + 1) ∧ ∀ j, j < i → ¬(b < 1024 ^ (j + 1))) ∧
    formatBytes (some 0) = none ∧ formatBytes none = none ∧
    formatBytes (some 1024) = some "1.00 KB" ∧
    formatBytes (some 1048576) = some "1.00 MB" ∧
    formatBytes (some 1073741824) = some "1.00 GB" := by
  refine ⟨?_, by decide, rfl, by decide, by decide, by decide⟩
  have hb : b ≠ 0 := by omega
  by_cases h1 : b < 1024
  · refine ⟨0, by omega, ?_, ?_, ?_⟩
    · simp [formatBytes, hb, h1]
    · simpa using h1
    · intro j hj
      omega
  · by_cases h2 : b < 1024 ^ 2
    · refine ⟨1, by omega, ?_, ?_, ?_⟩
      · simp [formatBytes, hb, h1, show b < 1048576 from by simpa using h2, pow_one]
      · simpa using h2
      · intro j hj
        have hj0 : j = 0 := by omega
        subst hj0
        simpa using h1
    · by_cases h3 : b < 1024 ^ 3
      · refine ⟨2, by omega, ?_, ?_, ?_⟩
        · simp [formatBytes, hb, h1, show ¬b < 1048576 from by simpa using h2,
            show b < 1073741824 from by simpa using h3]
        · simpa using h3
        · intro j hj
          have hj01 : j = 0 ∨ j = 1 := by omega
          rcases hj01 with hj0 | hj1
          · subst hj0; simpa using h1
          · subst hj1; simpa using h2
      · refine ⟨3, Nat.le_refl 3, ?_, ?_, ?_⟩
        · simp [formatBytes, hb, h1, show ¬b < 1048576 from by simpa using h2,
            show ¬b < 1073741824 from by simpa using h3]
        · simpa using h4
        · intro j hj
          have hj012 : j = 0 ∨ j = 1 ∨ j = 2 := by omega
          rcases hj012 with hj0 | hj1 | hj2
          · subst hj0; simpa using h1
          · subst hj1; simpa using h2
          · subst hj2; simpa using h3

/-- Claim C3 witness: 1536 bytes land in the KB unit (index 1). -/
theorem claim_C3_witness :
    ((0 : Int) < 1536 ∧ (1536 : Int) < 1024 ^ 4) ∧
    (∃ i, i ≤ 3 ∧
      formatBytes (some 1536) = some (toFixed2 1536 (1024 ^ i) ++ " " ++ unitName i) ∧
      (1536 : Int) < 1024 ^ (i + 1) ∧ ∀ j, j < i → ¬((1536 : Int) < 1024 ^ (j + 1))) :=
  ⟨⟨by decide, by decide⟩, (claim_C3_format_bytes 1536 (by decide) (by decide)).1⟩

/-- Claim C10: in the cleaned mapping, size is computed from filesize when
truthy, falls back to filesize_approx otherwise, and is null exactly when
both are falsy (absent or zero); audio_bitrate is null exactly when abr is
falsy; resolution is null exactly when height is falsy. -/
theorem claim_C10_cleaned_fields (f : Format) :
    ((cleanFormat f).size = none ↔
      truthyInt f.filesize = false ∧ truthyInt f.filesize_approx = false) ∧
    (truthyInt f.filesize = true → (cleanFormat f).size = formatBytes f.filesize) ∧
    (truthyInt f.filesize = false → (cleanFormat f).size = formatBytes f.filesize_approx) ∧
    ((cleanFormat f).audio_bitrate = none ↔ truthyInt f.abr = false) ∧
    ((cleanFormat f).resolution = none ↔ truthyNat f.height = false) := by
  refine ⟨?_, ?_, ?_, ?_, ?_⟩
  · rw [show (cleanFormat f).size = formatBytes (orElseTruthy f.filesize f.filesize_approx)
        from rfl,
      formatBytes_eq_none]
    cases ha : truthyInt f.filesize <;> simp [orElseTruthy, ha]
  · intro h
    simp [cleanFormat, orElseTruthy, h]
  · intro h
    simp [cleanFormat, orElseTruthy, h]
  · cases hab : f.abr with
    | none => simp [cleanFormat, truthyInt, hab]
    | some a => by_cases h0 : a = 0 <;> simp [cleanFormat, truthyInt, hab, h0]
  · cases hh : f.height with
    | none => simp [cleanFormat, truthyNat, hh]
    | some h => by_cases h0 : h = 0 <;> simp [cleanFormat, truthyNat, hh, h0]

/-- Claim C10 witness: an entry with no exact filesize falls back to the
approximate one. -/
theorem claim_C10_witness :
    (cleanFormat
        { format_id := "22", ext := "mp4", vcodec := some "avc1", height := some 720,
          abr := some 192, filesize := none, filesize_approx := some 1024 }).size =
      formatBytes (some 1024) :=
  (claim_C10_cleaned_fields
    { format_id := "22", ext := "mp4", vcodec := some "avc1", height := some 720,
      abr := some 192, filesize := none, filesize_approx := some 1024 }).2.2.1 rfl

/-- Claim C4: when the url parameter is missing or fails the http(s) +
allow-listed-host validation, both endpoints answer 400 and neither
invokes the subprocess runner (validation precedes every runner call in
both handlers). -/
theorem claim_C4_validation (url : Option Url) (kind : String) (fid : Option String)
    (fetch : Except String MediaInfo) (suffix : String) (run : Except String String)
    (filesAfter : List String)
    (h : url = none ∨ ∃ u, url = some u ∧ isValidYouTubeUrl u = false) :
    (inspectHandler url kind fetch).status = 400 ∧
    (inspectHandler url kind fetch).invokedRunner = false ∧
    (downloadHandler url fid kind suffix run filesAfter).status = 400 ∧
    (downloadHandler url fid kind suffix run filesAfter).invokedRunner = false := by
  rcases h with h | ⟨u, hu, hv⟩
  · subst h
    simp [inspectHandler, downloadHandler, validUrlOpt]
  · subst hu
    simp [inspectHandler, downloadHandler, validUrlOpt, hv]

/-- Claim C4 witness: an https URL on a non-allow-listed host is rejected
by both endpoints without invoking the runner. -/
theorem claim_C4_witness :
    (inspectHandler (some ⟨"https", "evil.com", "/watch"⟩) "ytv"
        (.ok ⟨"t", "u", "d", []⟩)).status = 400 ∧
    (inspectHandler (some ⟨"https", "evil.com", "/watch"⟩) "ytv"
        (.ok ⟨"t", "u", "d", []⟩)).invokedRunner = false ∧
    (downloadHandler (some ⟨"https", "evil.com", "/watch"⟩) (some "22") "ytv" "abc"
        (.ok "") []).status = 400 ∧
    (downloadHandler (some ⟨"https", "evil.com", "/watch"⟩) (some "22") "ytv" "abc"
        (.ok "") []).invokedRunner = false :=
  claim_C4_validation (some ⟨"https", "evil.com", "/watch"⟩) "ytv" (some "22")
    (.ok ⟨"t", "u", "d", []⟩) "abc" (.ok "") []
    (Or.inr ⟨⟨"https", "evil.com", "/watch"⟩, rfl, by decide⟩)

/-- Claim C1: a valid download request whose runner invocation succeeds
but whose temp directory lists zero files afterwards fails with a 500 and
sends no file; the handler itself leaves the directory in place (the
rmSync in the res.download callback never runs on this path), and the
directory name "dl-" ++ suffix matches the sweeper prefix, so any sweep at
an age beyond MAX_FILE_AGE removes it — the retention-window half of the
spec's deletion contract. -/
theorem claim_C1_zero_files (u : Url) (fid kind suffix out : String)
    (rmPresent : String → Bool) (mtime now : Int)
    (hu : isValidYouTubeUrl u = true) (hfid : fid ≠ "")
    (hage : now - mtime > MAX_FILE_AGE) :
    (downloadHandler (some u) (some fid) kind suffix (.ok out) []).status = 500 ∧
    (downloadHandler (some u) (some fid) kind suffix (.ok out) []).errorMsg =
      some "Download failed: No file was downloaded" ∧
    (downloadHandler (some u) (some fid) kind suffix (.ok out) []).sentFile = none ∧
    (downloadHandler (some u) (some fid) kind suffix (.ok out) []).tmpDir =
      some ("dl-" ++ suffix) ∧
    (downloadHandler (some u) (some fid) kind suffix (.ok out) []).tmpRemovedByHandler =
      false ∧
    isDlName ("dl-" ++ suffix) = true ∧
    cleanupTempFiles ["dl-" ++ suffix] (fun _ => some mtime) rmPresent now =
      Except.ok ["dl-" ++ suffix] := by
  have hdl : isDlName ("dl-" ++ suffix) = true := by
    cases suffix
    rfl
  have hhandler : downloadHandler (some u) (some fid) kind suffix (.ok out) [] =
      ⟨500, true, some "Download failed: No file was downloaded", none,
        some ("dl-" ++ suffix), false⟩ := by
    simp [downloadHandler, falsyStrOpt, validUrlOpt, hu, hfid]
  refine ⟨by rw [hhandler], by rw [hhandler], by rw [hhandler], by rw [hhandler],
    by rw [hhandler], hdl, ?_⟩
  have hfilter : (["dl-" ++ suffix].filter isDlName) = ["dl-" ++ suffix] := by
    simp [hdl]
  unfold cleanupTempFiles
  rw [hfilter, sweepList_ok (fun _ => some mtime) rmPresent now ["dl-" ++ suffix]
    (fun f _ => rfl)]
  simp [isStale, hage]

/-- Claim C1 witness: a concrete zero-file download at age 1800001 ms. -/
theorem claim_C1_witness :
    (isValidYouTubeUrl ⟨"https", "www.youtube.com", "/watch"⟩ = true ∧ ("22" : String) ≠ "" ∧
      (1800001 : Int) - 0 > MAX_FILE_AGE) ∧
    (downloadHandler (some ⟨"https", "www.youtube.com", "/watch"⟩) (some "22") "ytv"
        "abc123" (.ok "") []).status = 500 ∧
    cleanupTempFiles ["dl-" ++ "abc123"] (fun _ => some 0) (fun _ => true) 1800001 =
      Except.ok ["dl-" ++ "abc123"] := by
  have h := claim_C1_zero_files ⟨"https", "www.youtube.com", "/watch"⟩ "22" "ytv" "abc123"
    "" (fun _ => true) 0 1800001 (by decide) (by decide) (by decide)
  exact ⟨⟨by decide, by decide, by decide⟩, h.1, h.2.2.2.2.2.2⟩

/-- Claim C6: when the timeout fires before the child closes, runYtDlp
kills the child and rejects with "Operation timed out", and a download
request carrying that rejection fails with a 500 naming the timeout. -/
theorem claim_C6_timeout (u : Url) (fid kind suffix : String) (filesAfter : List String)
    (hu : isValidYouTubeUrl u = true) (hfid : fid ≠ "") :
    runYtDlp .timeout = ⟨.error "Operation timed out", true⟩ ∧
    (runYtDlp .timeout).killed = true ∧
    (downloadHandler (some u) (some fid) kind suffix (runYtDlp .timeout).result
        filesAfter).status = 500 ∧
    (downloadHandler (some u) (some fid) kind suffix (runYtDlp .timeout).result
        filesAfter).errorMsg = some "Download failed: Operation timed out" := by
  refine ⟨rfl, rfl, ?_, ?_⟩ <;>
    simp [downloadHandler, runYtDlp, falsyStrOpt, validUrlOpt, hu, hfid]

/-- Claim C6 witness: a concrete timed-out download request. -/
theorem claim_C6_witness :
    (isValidYouTubeUrl ⟨"https", "youtu.be", "/abc"⟩ = true ∧ ("18" : String) ≠ "") ∧
    runYtDlp .timeout = ⟨.error "Operation timed out", true⟩ ∧
    (downloadHandler (some ⟨"https", "youtu.be", "/abc"⟩) (some "18") "ytv" "xyz"
        (runYtDlp .timeout).result []).status = 500 := by
  have h := claim_C6_timeout ⟨"https", "youtu.be", "/abc"⟩ "18" "ytv" "xyz" []
    (by decide) (by decide)
  exact ⟨⟨by decide, by decide⟩, h.1, h.2.2.1⟩

end PremiumDownload
